import Mathlib

/-!
# Verification of the IronOS two-button input classifier

Shallow embedding of `source/Core/Drivers/Buttons.cpp`: the polled state
machine `getButtonState` that classifies raw button levels into short/long
press events, and the two blocking wait helpers `waitForButtonPress` and
`waitForButtonPressOrTimeout` built on top of it.

Machine integers are modelled as `Nat` with explicit modular reduction where
the C code can overflow: `TickType_t` is a 32-bit unsigned tick counter, so
tick subtraction is `sub32` (subtraction mod `2 ^ 32`) and the `uint8_t`
cast on `totalState` is reduction mod `256`.
-/

set_option autoImplicit false
set_option maxHeartbeats 1000000

namespace Buttons

/-- `2 ^ 32`, the modulus of the 32-bit `TickType_t` tick counter. -/
def W32 : Nat := 2 ^ 32

/-- 32-bit unsigned subtraction `a - b`, as the C expression `now - x`
computes it on `TickType_t` operands: modular arithmetic in `2 ^ 32`. -/
def sub32 (a b : Nat) : Nat := (a + (W32 - b % W32)) % W32

/-- Modelled from the spec: `TICKS_100MS` is defined outside this
repository (FreeRTOS port configuration headers, absent from the sources);
the spec fixes the tick granularity at 100 ms, making it one tick. -/
def TICKS_100MS : Nat := 1

/-- `constexpr uint16_t LONG_PRESS_MIN = TICKS_100MS * 4;` -/
def LONG_PRESS_MIN : Nat := TICKS_100MS * 4

/-- The `ButtonState` event values returned by one poll.  `BUTTON_NONE` is
the zero value (the C code tests events with `while (buttons)`). -/
inductive ButtonState where
  | BUTTON_NONE
  | BUTTON_B_SHORT
  | BUTTON_F_SHORT
  | BUTTON_B_LONG
  | BUTTON_F_LONG
  | BUTTON_BOTH
  | BUTTON_BOTH_LONG
deriving Repr, DecidableEq

/-- The `static State state` latch that persists across polls, field for
field as in the source. -/
structure State where
  /-- Bitmask for currently held buttons (`uint8_t state`). -/
  state : Nat
  /-- `bool wasShortPress`. -/
  wasShortPress : Bool
  /-- Bitmask of every button pressed this episode (`uint8_t totalState`). -/
  totalState : Nat
  /-- `TickType_t initialPressTime`. -/
  initialPressTime : Nat
  /-- `TickType_t stateChangeTime`. -/
  stateChangeTime : Nat
deriving Repr, DecidableEq

/-- The zeroed latch the driver starts from (all fields default to 0). -/
def initState : State := ⟨0, false, 0, 0, 0⟩

/-- `(getButtonA() << 0) | (getButtonB() << 1)`. -/
def currentMask (a b : Bool) : Nat := (cond a 1 0) ||| (cond b 2 0)

/-- One call to `getButtonState()`: reads the instantaneous button levels
`a`, `b` and the tick `now`, and returns the event together with the
updated latch.  Field updates follow the source line for line. -/
def getButtonState (a b : Bool) (now : Nat) (s0 : State) : ButtonState × State :=
  let currentState := currentMask a b
  -- if (currentState && !state.state) state.initialPressTime = now;
  let s1 := if currentState ≠ 0 ∧ s0.state = 0 then { s0 with initialPressTime := now } else s0
  -- const bool isShortPress = currentState && (now - state.initialPressTime < LONG_PRESS_MIN);
  let isShortPress := decide (currentState ≠ 0 ∧ sub32 now s1.initialPressTime < LONG_PRESS_MIN)
  if currentState ≠ s1.state then
    -- A button is pressed or released: state.stateChangeTime = now;
    if currentState ≠ 0 then
      (ButtonState.BUTTON_NONE,
        { s1 with
          stateChangeTime := now
          state := currentState
          wasShortPress := isShortPress
          totalState := (s1.totalState ||| currentState) % 256 })
    else
      -- User has released all buttons.
      let retVal :=
        if s1.wasShortPress then
          if s1.totalState = 1 then ButtonState.BUTTON_F_SHORT
          else if s1.totalState = 2 then ButtonState.BUTTON_B_SHORT
          else ButtonState.BUTTON_BOTH
        else ButtonState.BUTTON_NONE
      (retVal,
        { s1 with
          stateChangeTime := now
          state := currentState
          wasShortPress := isShortPress
          totalState := 0 })
  else
    -- Button state unchanged.
    if currentState = 0 then (ButtonState.BUTTON_NONE, s1)
    else
      let s2 := { s1 with wasShortPress := isShortPress }
      if LONG_PRESS_MIN ≤ sub32 now s2.stateChangeTime then
        (if currentState = 1 then ButtonState.BUTTON_F_LONG
         else if currentState = 2 then ButtonState.BUTTON_B_LONG
         else ButtonState.BUTTON_BOTH_LONG, s2)
      else (ButtonState.BUTTON_NONE, s2)

/-- The process-wide `lastButtonTime` global: set to `now` on every poll
where any button reads pressed, untouched otherwise. -/
def lastButtonTimeNext (a b : Bool) (now lastButtonTime : Nat) : Nat :=
  if currentMask a b ≠ 0 then now else lastButtonTime

/-- Latch states reachable from the zeroed initial state by any sequence
of polls. -/
inductive Reachable : State → Prop where
  | init : Reachable initState
  | step (a b : Bool) (now : Nat) {s : State} :
      Reachable s → Reachable (getButtonState a b now s).2

/-- The environment a blocking wait helper runs in: streams giving, for the
i-th loop iteration, the two button levels and the tick sampled inside
`getButtonState`, and the tick sampled at the deadline check.  `GUIDelay`
has no observable effect beyond the passage of time the streams encode. -/
structure Env where
  buttonA : Nat → Bool
  buttonB : Nat → Bool
  pollNow : Nat → Nat
  checkNow : Nat → Nat

/-- The i-th call to `getButtonState()` made by a wait helper. -/
def poll (env : Env) (i : Nat) (s : State) : ButtonState × State :=
  getButtonState (env.buttonA i) (env.buttonB i) (env.pollNow i) s

/-- The latch before poll `i`, starting from `s` (polls are consumed in
order 0, 1, 2, ... regardless of which loop performs them). -/
def runState (env : Env) (s : State) : Nat → State
  | 0 => s
  | i + 1 => (poll env i (runState env s i)).2

/-- The event returned by poll `i`, starting from `s`. -/
def results (env : Env) (s : State) (i : Nat) : ButtonState :=
  (poll env i (runState env s i)).1

/-- First loop of `waitForButtonPress`: `while (buttons) { buttons =
getButtonState(); GUIDelay(); }`.  `lastIdx` is the index of the poll that
produced `buttons`; the returned triple holds the index, event and latch at
loop exit.  `fuel` bounds the number of iterations (the C loop is
unbounded); `none` means the fuel ran out before the loop exited. -/
def wfbpPhase1 (env : Env) : Nat → Nat → ButtonState → State →
    Option (Nat × ButtonState × State)
  | 0, _, _, _ => none
  | fuel + 1, lastIdx, buttons, s =>
    if buttons = ButtonState.BUTTON_NONE then some (lastIdx, buttons, s)
    else
      let p := poll env (lastIdx + 1) s
      wfbpPhase1 env fuel (lastIdx + 1) p.1 p.2

/-- Second loop of `waitForButtonPress`: `while (!buttons) { buttons =
getButtonState(); GUIDelay(); }`. -/
def wfbpPhase2 (env : Env) : Nat → Nat → ButtonState → State →
    Option (Nat × ButtonState × State)
  | 0, _, _, _ => none
  | fuel + 1, lastIdx, buttons, s =>
    if buttons = ButtonState.BUTTON_NONE then
      let p := poll env (lastIdx + 1) s
      wfbpPhase2 env fuel (lastIdx + 1) p.1 p.2
    else some (lastIdx, buttons, s)

/-- `waitForButtonPress()`: one initial poll, drain the in-flight event
until a `BUTTON_NONE` is seen, then wait for the next real event.  Returns
the index of the final poll, the event it consumed, and the final latch. -/
def waitForButtonPress (env : Env) (s : State) (fuel : Nat) :
    Option (Nat × ButtonState × State) :=
  match wfbpPhase1 env fuel 0 (poll env 0 s).1 (poll env 0 s).2 with
  | none => none
  | some (j, bj, sj) => wfbpPhase2 env fuel j bj sj

/-- The deadline test `xTaskGetTickCount() > timeout` of
`waitForButtonPressOrTimeout`: a direct ordered comparison of the 32-bit
tick against the absolute deadline. -/
def deadlineExceeded (now dl : Nat) : Bool := decide (dl < now % W32)

/-- Outcome of `waitForButtonPressOrTimeout`: either the deadline check at
iteration `i` fired, or the poll at index `i` produced the event `ev` that
ended the wait. -/
inductive WaitOutcome where
  | timedOut (i : Nat)
  | gotEvent (i : Nat) (ev : ButtonState)
deriving Repr, DecidableEq

/-- First loop of `waitForButtonPressOrTimeout`: as `wfbpPhase1` but with
the deadline check after every poll.  `Sum.inl` is an early return on
timeout, `Sum.inr` a normal loop exit. -/
def wfbpotPhase1 (env : Env) (dl : Nat) : Nat → Nat → ButtonState → State →
    Option (Sum (Nat × State) (Nat × ButtonState × State))
  | 0, _, _, _ => none
  | fuel + 1, lastIdx, buttons, s =>
    if buttons = ButtonState.BUTTON_NONE then some (Sum.inr (lastIdx, buttons, s))
    else
      let p := poll env (lastIdx + 1) s
      if deadlineExceeded (env.checkNow (lastIdx + 1)) dl then
        some (Sum.inl (lastIdx + 1, p.2))
      else wfbpotPhase1 env dl fuel (lastIdx + 1) p.1 p.2

/-- Second loop of `waitForButtonPressOrTimeout`, with the deadline check
after every poll. -/
def wfbpotPhase2 (env : Env) (dl : Nat) : Nat → Nat → ButtonState → State →
    Option (WaitOutcome × State)
  | 0, _, _, _ => none
  | fuel + 1, lastIdx, buttons, s =>
    if buttons = ButtonState.BUTTON_NONE then
      let p := poll env (lastIdx + 1) s
      if deadlineExceeded (env.checkNow (lastIdx + 1)) dl then
        some (WaitOutcome.timedOut (lastIdx + 1), p.2)
      else wfbpotPhase2 env dl fuel (lastIdx + 1) p.1 p.2
    else some (WaitOutcome.gotEvent lastIdx buttons, s)

/-- `waitForButtonPressOrTimeout(timeout)`: `timeout += xTaskGetTickCount()`
is 32-bit addition of the entry tick, giving the absolute deadline; then
the same two-phase wait with a deadline check on every iteration. -/
def waitForButtonPressOrTimeout (env : Env) (timeout entryNow : Nat) (s : State)
    (fuel : Nat) : Option (WaitOutcome × State) :=
  match wfbpotPhase1 env ((timeout + entryNow) % W32) fuel 0 (poll env 0 s).1 (poll env 0 s).2 with
  | none => none
  | some (Sum.inl (i, si)) => some (WaitOutcome.timedOut i, si)
  | some (Sum.inr (j, bj, sj)) =>
      wfbpotPhase2 env ((timeout + entryNow) % W32) fuel j bj sj

/-- Events reporting a completed short press (spec: `AShort`, `BShort`,
`Both`). -/
def isShortEvent : ButtonState → Bool
  | ButtonState.BUTTON_F_SHORT => true
  | ButtonState.BUTTON_B_SHORT => true
  | ButtonState.BUTTON_BOTH => true
  | _ => false

/-- Events reporting an ongoing long hold (spec: `ALong`, `BLong`,
`BothLong`). -/
def isLongEvent : ButtonState → Bool
  | ButtonState.BUTTON_F_LONG => true
  | ButtonState.BUTTON_B_LONG => true
  | ButtonState.BUTTON_BOTH_LONG => true
  | _ => false

/-! ### Helper lemmas: branch characterizations and invariants -/

theorem currentMask_lt_four (a b : Bool) : currentMask a b < 4 := by
  cases a <;> cases b <;> decide

theorem lor_lt_256 {x y : Nat} (hx : x < 256) (hy : y < 256) : x ||| y < 256 := by
  have h : x ||| y < 2 ^ 8 := Nat.bitwise_lt (by norm_num at hx ⊢; omega) (by norm_num; omega)
  norm_num at h; omega

theorem lor_absorb (c t : Nat) : c ||| (t ||| c) = t ||| c := by
  rw [Nat.lor_comm t c, ← Nat.lor_assoc]
  simp

/-- Branch of `getButtonState` for a changed, non-empty mask. -/
theorem getButtonState_press (a b : Bool) (now : Nat) (s : State)
    (h1 : currentMask a b ≠ s.state) (h2 : currentMask a b ≠ 0) :
    getButtonState a b now s =
      (ButtonState.BUTTON_NONE,
        { state := currentMask a b
          wasShortPress := decide
            (sub32 now (if s.state = 0 then now else s.initialPressTime) < LONG_PRESS_MIN)
          totalState := (s.totalState ||| currentMask a b) % 256
          initialPressTime := if s.state = 0 then now else s.initialPressTime
          stateChangeTime := now }) := by
  rcases Decidable.em (s.state = 0) with h0 | h0 <;> simp [getButtonState, h0, h1, h2]

/-- Branch of `getButtonState` for the release edge. -/
theorem getButtonState_release (a b : Bool) (now : Nat) (s : State)
    (hz : currentMask a b = 0) (h0 : s.state ≠ 0) :
    getButtonState a b now s =
      (if s.wasShortPress then
        if s.totalState = 1 then ButtonState.BUTTON_F_SHORT
        else if s.totalState = 2 then ButtonState.BUTTON_B_SHORT
        else ButtonState.BUTTON_BOTH
      else ButtonState.BUTTON_NONE,
        { state := 0
          wasShortPress := false
          totalState := 0
          initialPressTime := s.initialPressTime
          stateChangeTime := now }) := by
  simp [getButtonState, hz, h0, Ne.symm h0]

/-- Branch of `getButtonState` for an idle poll. -/
theorem getButtonState_idle (a b : Bool) (now : Nat) (s : State)
    (hz : currentMask a b = 0) (h0 : s.state = 0) :
    getButtonState a b now s = (ButtonState.BUTTON_NONE, s) := by
  simp [getButtonState, hz, h0]

/-- Branch of `getButtonState` for an unchanged, non-empty mask. -/
theorem getButtonState_held (a b : Bool) (now : Nat) (s : State)
    (he : currentMask a b = s.state) (h0 : s.state ≠ 0) :
    getButtonState a b now s =
      (if LONG_PRESS_MIN ≤ sub32 now s.stateChangeTime then
        if s.state = 1 then ButtonState.BUTTON_F_LONG
        else if s.state = 2 then ButtonState.BUTTON_B_LONG
        else ButtonState.BUTTON_BOTH_LONG
      else ButtonState.BUTTON_NONE,
        { s with wasShortPress := decide (sub32 now s.initialPressTime < LONG_PRESS_MIN) }) := by
  by_cases hL : LONG_PRESS_MIN ≤ sub32 now s.stateChangeTime <;>
    simp [getButtonState, he, h0, hL]

/-- The invariant the latch satisfies in every reachable state: the masks
fit their 8-bit fields, `totalState` is a superset of `state`, and an
empty `state` comes with a cleared short flag and a cleared `totalState`. -/
def LatchInv (s : State) : Prop :=
  s.state < 4 ∧ s.totalState < 256 ∧ s.state ||| s.totalState = s.totalState ∧
    (s.state = 0 → s.wasShortPress = false ∧ s.totalState = 0)

theorem latchInv_step (a b : Bool) (now : Nat) (s : State) (h : LatchInv s) :
    LatchInv (getButtonState a b now s).2 := by
  obtain ⟨h1, h2, h3, h4⟩ := h
  have hm : currentMask a b < 4 := currentMask_lt_four a b
  have hmod : (s.totalState ||| currentMask a b) % 256 = s.totalState ||| currentMask a b :=
    Nat.mod_eq_of_lt (lor_lt_256 h2 (by omega))
  by_cases he : currentMask a b = s.state
  · by_cases h0 : s.state = 0
    · rw [getButtonState_idle a b now s (he.trans h0) h0]
      exact ⟨h1, h2, h3, h4⟩
    · rw [getButtonState_held a b now s he h0]
      exact ⟨h1, h2, h3, fun hc => absurd hc h0⟩
  · by_cases hz : currentMask a b = 0
    · rw [getButtonState_release a b now s hz fun hc => he (hz.trans hc.symm)]
      exact ⟨by show (0:Nat) < 4; decide, by show (0:Nat) < 256; decide,
        by show (0:Nat) ||| 0 = 0; decide, fun _ => ⟨rfl, rfl⟩⟩
    · rw [getButtonState_press a b now s he hz]
      refine ⟨hm, by rw [hmod]; exact lor_lt_256 h2 (by omega), ?_, fun hc => absurd hc hz⟩
      show currentMask a b ||| (s.totalState ||| currentMask a b) % 256 =
        (s.totalState ||| currentMask a b) % 256
      rw [hmod]
      exact lor_absorb _ _

theorem reachable_latchInv (s : State) (hs : Reachable s) : LatchInv s := by
  induction hs with
  | init => exact ⟨by decide, by decide, by decide, fun _ => ⟨rfl, rfl⟩⟩
  | step a b now hs ih => exact latchInv_step _ _ _ _ ih

/-- C5: in every reachable latch state, `totalState` (everHeld) is a
bitmask superset of `state` (held); a poll clears `totalState` to empty
exactly on the transition of `state` from non-empty to empty, and on every
other poll merely merges the freshly read mask into it. -/
theorem c5_everHeld_superset_and_cleared_on_release (s : State) (hs : Reachable s)
    (a b : Bool) (now : Nat) :
    s.state ||| s.totalState = s.totalState ∧
    (if s.state ≠ 0 ∧ (getButtonState a b now s).2.state = 0 then
      (getButtonState a b now s).2.totalState = 0
    else
      (getButtonState a b now s).2.totalState = (s.totalState ||| currentMask a b) % 256) := by
  obtain ⟨h1, h2, h3, h4⟩ := reachable_latchInv s hs
  refine ⟨h3, ?_⟩
  by_cases he : currentMask a b = s.state
  · by_cases h0 : s.state = 0
    · rw [getButtonState_idle a b now s (he.trans h0) h0, if_neg (by simp [h0])]
      rw [he.trans h0]
      simp [Nat.mod_eq_of_lt h2]
    · rw [getButtonState_held a b now s he h0]
      rw [if_neg (by simp [h0])]
      show s.totalState = (s.totalState ||| currentMask a b) % 256
      rw [he, Nat.lor_comm, h3, Nat.mod_eq_of_lt h2]
  · by_cases hz : currentMask a b = 0
    · have h0 : s.state ≠ 0 := fun hc => he (hz.trans hc.symm)
      rw [getButtonState_release a b now s hz h0, if_pos ⟨h0, rfl⟩]
    · rw [getButtonState_press a b now s he hz, if_neg (by simp [hz])]

/-- Witness for C5 at the initial state with a press of A: the superset
equation holds and the press poll merges bit 1 into `totalState`. -/
theorem c5_everHeld_superset_and_cleared_on_release_witness :
    (0 : Nat) ||| 0 = 0 ∧
    (if initState.state ≠ 0 ∧ (getButtonState true false 7 initState).2.state = 0 then
      (getButtonState true false 7 initState).2.totalState = 0
    else
      (getButtonState true false 7 initState).2.totalState =
        (initState.totalState ||| currentMask true false) % 256) :=
  c5_everHeld_superset_and_cleared_on_release initState Reachable.init true false 7

/-- C9: in every reachable latch state with `state` empty, including the
zeroed initial state, the short flag is cleared and `totalState` is empty,
so each episode starts from a clean latch. -/
theorem c9_idle_latch_is_clean (s : State) (hs : Reachable s) (h0 : s.state = 0) :
    s.wasShortPress = false ∧ s.totalState = 0 :=
  (reachable_latchInv s hs).2.2.2 h0

/-- Witness for C9 at the zeroed initial state. -/
theorem c9_idle_latch_is_clean_witness :
    initState.wasShortPress = false ∧ initState.totalState = 0 :=
  c9_idle_latch_is_clean initState Reachable.init rfl

/-- C1: on the release edge (both buttons read released while the latched
held mask is non-empty), the event is `BUTTON_NONE` when `wasShortPress` is
false, and otherwise is selected by `totalState`: `1` gives the front
(A) short press, `2` the back (B) short press, anything else `BUTTON_BOTH`. -/
theorem c1_release_edge_event (now : Nat) (s : State) (h : s.state ≠ 0) :
    (getButtonState false false now s).1 =
      (if s.wasShortPress then
        if s.totalState = 1 then ButtonState.BUTTON_F_SHORT
        else if s.totalState = 2 then ButtonState.BUTTON_B_SHORT
        else ButtonState.BUTTON_BOTH
      else ButtonState.BUTTON_NONE) := by
  simp [getButtonState, currentMask, h, Ne.symm h]

/-- Witness for C1 at a concrete latch: A was the only button ever held
and the episode stayed short, so the release poll reports `BUTTON_F_SHORT`. -/
theorem c1_release_edge_event_witness :
    (getButtonState false false 7 ⟨1, true, 1, 0, 0⟩).1 = ButtonState.BUTTON_F_SHORT :=
  (c1_release_edge_event 7 ⟨1, true, 1, 0, 0⟩ (by decide)).trans (by decide)

/-- C2: while the current mask equals the non-empty latched mask, the poll
returns the long event for that mask exactly when the time since
`stateChangeTime` has reached `LONG_PRESS_MIN`, and `BUTTON_NONE` below the
threshold; the latched mask and `stateChangeTime` are unchanged by the
poll, so the same long event repeats on every later poll of an unchanged
combination past the threshold. -/
theorem c2_long_hold_event (a b : Bool) (now : Nat) (s : State)
    (h1 : currentMask a b = s.state) (h2 : s.state ≠ 0) :
    (getButtonState a b now s).1 =
      (if LONG_PRESS_MIN ≤ sub32 now s.stateChangeTime then
        if s.state = 1 then ButtonState.BUTTON_F_LONG
        else if s.state = 2 then ButtonState.BUTTON_B_LONG
        else ButtonState.BUTTON_BOTH_LONG
      else ButtonState.BUTTON_NONE) ∧
    (getButtonState a b now s).2.state = s.state ∧
    (getButtonState a b now s).2.stateChangeTime = s.stateChangeTime := by
  by_cases hL : LONG_PRESS_MIN ≤ sub32 now s.stateChangeTime <;>
    simp [getButtonState, h1, h2, hL]

/-- Witness for C2: A latched and still pressed, combination unchanged for
10 ticks with threshold 4, so the poll reports `BUTTON_F_LONG` and keeps
the latch. -/
theorem c2_long_hold_event_witness :
    (getButtonState true false 10 ⟨1, true, 1, 0, 0⟩).1 = ButtonState.BUTTON_F_LONG ∧
    (getButtonState true false 10 ⟨1, true, 1, 0, 0⟩).2.state = 1 ∧
    (getButtonState true false 10 ⟨1, true, 1, 0, 0⟩).2.stateChangeTime = 0 := by
  have h := c2_long_hold_event true false 10 ⟨1, true, 1, 0, 0⟩ (by decide) (by decide)
  exact ⟨h.1.trans (by decide), h.2.1, h.2.2⟩

/-- C4: a poll whose non-empty mask differs from the latched mask returns
`BUTTON_NONE` and latches the new mask, the freshly computed short flag and
the merged `totalState`; `initialPressTime` is rebased to `now` only when
the previous latch was empty, and `stateChangeTime` becomes `now`. -/
theorem c4_press_latches_silently (a b : Bool) (now : Nat) (s : State)
    (h1 : currentMask a b ≠ s.state) (h2 : currentMask a b ≠ 0) :
    getButtonState a b now s =
      (ButtonState.BUTTON_NONE,
        { state := currentMask a b
          wasShortPress := decide (currentMask a b ≠ 0 ∧
            sub32 now (if s.state = 0 then now else s.initialPressTime) < LONG_PRESS_MIN)
          totalState := (s.totalState ||| currentMask a b) % 256
          initialPressTime := if s.state = 0 then now else s.initialPressTime
          stateChangeTime := now }) := by
  rcases Decidable.em (s.state = 0) with h0 | h0 <;>
    simp [getButtonState, h0, h1, h2]

/-- Witness for C4: first press of A from the zeroed latch at tick 5. -/
theorem c4_press_latches_silently_witness :
    getButtonState true false 5 initState =
      (ButtonState.BUTTON_NONE, ⟨1, true, 1, 5, 5⟩) :=
  (c4_press_latches_silently true false 5 initState (by decide) (by decide)).trans
    (by decide)

/-- What the first `waitForButtonPress` loop guarantees when it exits: the
exit poll index is at least the entry index, the event seen there is
`BUTTON_NONE`, the carried event and latch agree with the canonical run,
and a non-`BUTTON_NONE` entry event forces at least one further poll. -/
theorem wfbpPhase1_spec (env : Env) (s0 : State) :
    ∀ fuel l b s j bj sj,
      b = results env s0 l → s = runState env s0 (l + 1) →
      wfbpPhase1 env fuel l b s = some (j, bj, sj) →
      l ≤ j ∧ bj = ButtonState.BUTTON_NONE ∧ bj = results env s0 j ∧
        sj = runState env s0 (j + 1) ∧ (b ≠ ButtonState.BUTTON_NONE → l < j) := by
  intro fuel
  induction fuel with
  | zero =>
    intro l b s j bj sj _ _ h
    exact absurd h (by simp [wfbpPhase1])
  | succ fuel ih =>
    intro l b s j bj sj hb hs h
    by_cases hbn : b = ButtonState.BUTTON_NONE
    · simp only [wfbpPhase1, if_pos hbn, Option.some.injEq, Prod.mk.injEq] at h
      obtain ⟨hj, hbj, hsj⟩ := h
      subst hj hbj hsj
      exact ⟨Nat.le_refl l, hbn, hbn.symm ▸ hb, hs, fun hc => absurd hbn hc⟩
    · simp only [wfbpPhase1, if_neg hbn] at h
      have hp1 : (poll env (l + 1) s).1 = results env s0 (l + 1) := by
        rw [hs]; rfl
      have hp2 : (poll env (l + 1) s).2 = runState env s0 (l + 1 + 1) := by
        rw [hs]; rfl
      obtain ⟨h1, h2, h3, h4, _⟩ := ih (l + 1) _ _ j bj sj hp1 hp2 h
      exact ⟨Nat.le_of_succ_le h1, h2, h3, h4, fun _ => Nat.lt_of_succ_le h1⟩

/-- What the second `waitForButtonPress` loop guarantees when it exits:
the event it ends on is not `BUTTON_NONE`, it agrees with the canonical
run, and a `BUTTON_NONE` entry event forces at least one further poll. -/
theorem wfbpPhase2_spec (env : Env) (s0 : State) :
    ∀ fuel l b s k ev sk,
      b = results env s0 l → s = runState env s0 (l + 1) →
      wfbpPhase2 env fuel l b s = some (k, ev, sk) →
      l ≤ k ∧ ev ≠ ButtonState.BUTTON_NONE ∧ ev = results env s0 k ∧
        sk = runState env s0 (k + 1) ∧ (b = ButtonState.BUTTON_NONE → l < k) := by
  intro fuel
  induction fuel with
  | zero =>
    intro l b s k ev sk _ _ h
    exact absurd h (by simp [wfbpPhase2])
  | succ fuel ih =>
    intro l b s k ev sk hb hs h
    by_cases hbn : b = ButtonState.BUTTON_NONE
    · simp only [wfbpPhase2, if_pos hbn] at h
      have hp1 : (poll env (l + 1) s).1 = results env s0 (l + 1) := by
        rw [hs]; rfl
      have hp2 : (poll env (l + 1) s).2 = runState env s0 (l + 1 + 1) := by
        rw [hs]; rfl
      obtain ⟨h1, h2, h3, h4, _⟩ := ih (l + 1) _ _ k ev sk hp1 hp2 h
      exact ⟨Nat.le_of_succ_le h1, h2, h3, h4, fun _ => Nat.lt_of_succ_le h1⟩
    · simp only [wfbpPhase2, if_neg hbn, Option.some.injEq, Prod.mk.injEq] at h
      obtain ⟨hk, hev, hsk⟩ := h
      subst hk hev hsk
      exact ⟨Nat.le_refl l, hbn, hb, hs, fun hc => absurd hc hbn⟩

/-- C6: when `waitForButtonPress` is entered while the classifier is
already reporting an event (poll 0 non-`BUTTON_NONE`) and the call returns
having last polled at index `k`, the consumed event is the
non-`BUTTON_NONE` result of poll `k`, and some strictly earlier poll
`j` (with `0 < j < k`) observed `BUTTON_NONE`: the pre-existing event is
drained, never returned for. -/
theorem c6_wait_drains_held_event (env : Env) (s : State) (fuel k : Nat)
    (ev : ButtonState) (sk : State)
    (h0 : results env s 0 ≠ ButtonState.BUTTON_NONE)
    (hret : waitForButtonPress env s fuel = some (k, ev, sk)) :
    ev ≠ ButtonState.BUTTON_NONE ∧ ev = results env s k ∧
      ∃ j, 0 < j ∧ j < k ∧ results env s j = ButtonState.BUTTON_NONE := by
  unfold waitForButtonPress at hret
  rcases hph1 : wfbpPhase1 env fuel 0 (poll env 0 s).1 (poll env 0 s).2 with _ | ⟨j, bj, sj⟩
  · rw [hph1] at hret; exact absurd hret (by simp)
  · rw [hph1] at hret
    have hr0 : (poll env 0 s).1 = results env s 0 := rfl
    have hs0 : (poll env 0 s).2 = runState env s 1 := rfl
    obtain ⟨_, hbjn, hbj, hsj, hlt⟩ :=
      wfbpPhase1_spec env s fuel 0 _ _ j bj sj hr0.symm hs0.symm hph1
    obtain ⟨hjk, hev, hevr, _, hlt2⟩ :=
      wfbpPhase2_spec env s fuel j bj sj k ev sk hbj hsj hret
    have hj0 : 0 < j := hlt (hr0 ▸ h0)
    have hjk2 : j < k := hlt2 hbjn
    exact ⟨hev, hevr, j, hj0, hjk2, hbjn ▸ hbj.symm⟩

/-- Witness for C6: A is held long at entry (poll 0 reports
`BUTTON_F_LONG`), released at poll 1 (`BUTTON_NONE`), pressed again at
poll 2 and held long at poll 3, whose `BUTTON_F_LONG` ends the wait. -/
theorem c6_wait_drains_held_event_witness :
    ButtonState.BUTTON_F_LONG ≠ ButtonState.BUTTON_NONE ∧
    ButtonState.BUTTON_F_LONG =
      results ⟨fun i => decide (i ≠ 1), fun _ => false, fun i => 10 * (i + 1), fun _ => 0⟩
        ⟨1, true, 1, 0, 0⟩ 3 ∧
    ∃ j, 0 < j ∧ j < 3 ∧
      results ⟨fun i => decide (i ≠ 1), fun _ => false, fun i => 10 * (i + 1), fun _ => 0⟩
        ⟨1, true, 1, 0, 0⟩ j = ButtonState.BUTTON_NONE :=
  c6_wait_drains_held_event
    ⟨fun i => decide (i ≠ 1), fun _ => false, fun i => 10 * (i + 1), fun _ => 0⟩
    ⟨1, true, 1, 0, 0⟩ 10 3 ButtonState.BUTTON_F_LONG ⟨1, false, 1, 30, 30⟩
    (by decide) (by decide)

/-- Running the second `waitForButtonPressOrTimeout` loop on a run whose
polls all report `BUTTON_NONE`: with the deadline checks strictly between
`l` and `l + d` not yet fired and the check at `l + d` fired, the loop
returns the timeout at exactly `l + d`, the first fired check. -/
theorem wfbpotPhase2_idle_timeout (env : Env) (dl : Nat) (s0 : State)
    (hev : ∀ i, results env s0 i = ButtonState.BUTTON_NONE) :
    ∀ d l, 0 < d →
      (∀ m, l < m → m < l + d → deadlineExceeded (env.checkNow m) dl = false) →
      deadlineExceeded (env.checkNow (l + d)) dl = true →
      wfbpotPhase2 env dl d l (results env s0 l) (runState env s0 (l + 1)) =
        some (WaitOutcome.timedOut (l + d), runState env s0 (l + d + 1)) := by
  intro d
  induction d with
  | zero => intro l hd; omega
  | succ d ih =>
    intro l _ hbefore hat
    rw [wfbpotPhase2, if_pos (hev l)]
    have hp1 : (poll env (l + 1) (runState env s0 (l + 1))).1 = results env s0 (l + 1) := rfl
    have hp2 : (poll env (l + 1) (runState env s0 (l + 1))).2 = runState env s0 (l + 1 + 1) := rfl
    rcases Nat.eq_zero_or_pos d with hd0 | hd0
    · subst hd0
      rw [if_pos (by simpa using hat)]
      simp [hp2]
    · rw [if_neg (by rw [hbefore (l + 1) (by omega) (by omega)]; simp)]
      have heq : l + 1 + d = l + (d + 1) := by omega
      have hrec := ih (l + 1) hd0 (fun m hm1 hm2 => hbefore m (by omega) (by omega))
        (by have h := hat; rwa [show l + (d + 1) = l + 1 + d by omega] at h)
      rw [heq] at hrec
      exact hrec

/-- Running the first `waitForButtonPressOrTimeout` loop on a run whose
polls all report an event: the deadline check of the first loop fires at
`l + d`, the first fired check, and the call path returns the timeout
early return of phase 1. -/
theorem wfbpotPhase1_busy_timeout (env : Env) (dl : Nat) (s0 : State)
    (hev : ∀ i, results env s0 i ≠ ButtonState.BUTTON_NONE) :
    ∀ d l, 0 < d →
      (∀ m, l < m → m < l + d → deadlineExceeded (env.checkNow m) dl = false) →
      deadlineExceeded (env.checkNow (l + d)) dl = true →
      wfbpotPhase1 env dl d l (results env s0 l) (runState env s0 (l + 1)) =
        some (Sum.inl (l + d, runState env s0 (l + d + 1))) := by
  intro d
  induction d with
  | zero => intro l hd; omega
  | succ d ih =>
    intro l _ hbefore hat
    rw [wfbpotPhase1, if_neg (hev l)]
    have hp1 : (poll env (l + 1) (runState env s0 (l + 1))).1 = results env s0 (l + 1) := rfl
    have hp2 : (poll env (l + 1) (runState env s0 (l + 1))).2 = runState env s0 (l + 1 + 1) := rfl
    rcases Nat.eq_zero_or_pos d with hd0 | hd0
    · subst hd0
      rw [if_pos (by simpa using hat)]
      simp [hp2]
    · rw [if_neg (by rw [hbefore (l + 1) (by omega) (by omega)]; simp)]
      have heq : l + 1 + d = l + (d + 1) := by omega
      have hrec := ih (l + 1) hd0 (fun m hm1 hm2 => hbefore m (by omega) (by omega))
        (by have h := hat; rwa [show l + (d + 1) = l + 1 + d by omega] at h)
      rw [heq] at hrec
      exact hrec

/-- The behavior of `waitForButtonPressOrTimeout` when some deadline check
does fire: the absolute deadline `(timeout + entryNow) % W32` is computed
at entry and checked on every iteration of both loops, so whether every
poll reports `BUTTON_NONE` (the wait sits in the second loop) or every
poll reports an event (the wait sits in the first loop), the call returns
at the first iteration `N` whose sampled tick exceeds the deadline.  This
does not cover the calls whose wrapped deadline is `W32 - 1`, on which no
check can ever fire; see the C7 theorem below. -/
theorem wfbpot_returns_at_first_fired_check (env : Env) (timeout entryNow : Nat) (s : State) (N : Nat)
    (hN : 0 < N)
    (hbefore : ∀ m, 0 < m → m < N →
      deadlineExceeded (env.checkNow m) ((timeout + entryNow) % W32) = false)
    (hat : deadlineExceeded (env.checkNow N) ((timeout + entryNow) % W32) = true) :
    ((∀ i, results env s i = ButtonState.BUTTON_NONE) →
      waitForButtonPressOrTimeout env timeout entryNow s N =
        some (WaitOutcome.timedOut N, runState env s (N + 1))) ∧
    ((∀ i, results env s i ≠ ButtonState.BUTTON_NONE) →
      waitForButtonPressOrTimeout env timeout entryNow s N =
        some (WaitOutcome.timedOut N, runState env s (N + 1))) := by
  obtain ⟨n, rfl⟩ : ∃ n, N = n + 1 := ⟨N - 1, by omega⟩
  constructor
  · intro hev
    unfold waitForButtonPressOrTimeout
    have hz : (poll env 0 s).1 = ButtonState.BUTTON_NONE := hev 0
    rw [wfbpotPhase1, if_pos hz]
    have h2 := wfbpotPhase2_idle_timeout env ((timeout + entryNow) % W32) s hev (n + 1) 0
      hN (fun m hm1 hm2 => hbefore m hm1 (by omega)) (by simpa using hat)
    simp only [Nat.zero_add] at h2
    exact h2
  · intro hev
    unfold waitForButtonPressOrTimeout
    have h1 : wfbpotPhase1 env ((timeout + entryNow) % W32) (n + 1) 0
        (poll env 0 s).1 (poll env 0 s).2 =
        some (Sum.inl (n + 1, runState env s (n + 1 + 1))) := by
      have := wfbpotPhase1_busy_timeout env ((timeout + entryNow) % W32) s hev (n + 1) 0
        hN (fun m hm1 hm2 => hbefore m hm1 (by omega)) (by simpa using hat)
      simpa using this
    rw [h1]

/-- The always-idle environment: no button ever pressed, ticks advance one
per sample. -/
def idleEnv : Env := ⟨fun _ => false, fun _ => false, fun i => i, fun i => i⟩

theorem idleEnv_poll (i : Nat) (s : State) (h0 : s.state = 0) :
    poll idleEnv i s = (ButtonState.BUTTON_NONE, s) :=
  getButtonState_idle false false (idleEnv.pollNow i) s (by decide) h0

theorem idleEnv_runState (i : Nat) : runState idleEnv initState i = initState := by
  induction i with
  | zero => rfl
  | succ i ih => rw [runState, ih, idleEnv_poll i initState rfl]

theorem idleEnv_results (i : Nat) : results idleEnv initState i = ButtonState.BUTTON_NONE := by
  rw [results, idleEnv_runState, idleEnv_poll i initState rfl]

/-- A concrete run of `wfbpot_returns_at_first_fired_check`: timeout 2
from entry tick 0 gives deadline 2; with no button ever pressed the call
returns at iteration 3, the first whose tick exceeds the deadline. -/
theorem wfbpot_returns_at_first_fired_check_example :
    waitForButtonPressOrTimeout idleEnv 2 0 initState 3 =
      some (WaitOutcome.timedOut 3, initState) := by
  have h := (wfbpot_returns_at_first_fired_check idleEnv 2 0 initState 3 (by decide)
    (fun m h1 h2 => by interval_cases m <;> decide) (by decide)).1 idleEnv_results
  rw [h, idleEnv_runState]

/-- No sampled 32-bit tick can exceed a deadline of `W32 - 1`: the direct
comparison `now > deadline` of the source is unsatisfiable there. -/
theorem deadlineExceeded_max (now : Nat) : deadlineExceeded now (W32 - 1) = false := by
  have h32 : W32 = 4294967296 := by norm_num [W32]
  have h : now % W32 < W32 := Nat.mod_lt now (by omega)
  simp only [deadlineExceeded, decide_eq_false_iff_not, not_lt]
  omega

/-- If no deadline check can ever fire and every poll reports
`BUTTON_NONE`, the second `waitForButtonPressOrTimeout` loop exhausts any
amount of fuel without returning. -/
theorem wfbpotPhase2_never_fires (env : Env) (dl : Nat) (s0 : State)
    (hev : ∀ i, results env s0 i = ButtonState.BUTTON_NONE)
    (hdl : ∀ m, deadlineExceeded (env.checkNow m) dl = false) :
    ∀ fuel l, wfbpotPhase2 env dl fuel l (results env s0 l) (runState env s0 (l + 1)) =
      none := by
  intro fuel
  induction fuel with
  | zero => intro l; rfl
  | succ fuel ih =>
    intro l
    rw [wfbpotPhase2, if_pos (hev l), if_neg (by rw [hdl (l + 1)]; simp)]
    exact ih (l + 1)

/-- C7 failing input: `waitForButtonPressOrTimeout` entered at tick
`W32 - 11` with timeout 10 computes the wrapped deadline
`(10 + (W32 - 11)) % W32 = W32 - 1`, which the source checks with the
direct comparison `xTaskGetTickCount() > timeout`.  No 32-bit tick exceeds
`W32 - 1`, so with no button ever pressed the call runs out of any amount
of fuel without returning: it loops forever instead of returning by the
deadline. -/
theorem c7_wrap_deadline_never_returns (fuel : Nat) :
    waitForButtonPressOrTimeout idleEnv 10 (W32 - 11) initState fuel = none := by
  have hdlv : (10 + (W32 - 11)) % W32 = W32 - 1 := by norm_num [W32]
  have hdl : ∀ m, deadlineExceeded (idleEnv.checkNow m) ((10 + (W32 - 11)) % W32) = false := by
    intro m
    rw [hdlv]
    exact deadlineExceeded_max _
  rcases fuel with _ | n
  · rfl
  · unfold waitForButtonPressOrTimeout
    have hz : (poll idleEnv 0 initState).1 = ButtonState.BUTTON_NONE := idleEnv_results 0
    rw [wfbpotPhase1, if_pos hz]
    exact wfbpotPhase2_never_fires idleEnv ((10 + (W32 - 11)) % W32) initState
      idleEnv_results hdl (n + 1) 0

/-- The environment for the C8 failing input: no button ever pressed and
every tick sample reads `W32 - 1`, the last value before the 32-bit tick
counter wraps. -/
def wrapEnv : Env := ⟨fun _ => false, fun _ => false, fun _ => W32 - 1, fun _ => W32 - 1⟩

/-- C8 failing input: the classifier compares durations with the modular
subtraction `sub32`, but the deadline test of `waitForButtonPressOrTimeout`
is the direct ordered comparison `xTaskGetTickCount() > timeout` on
absolute tick values.  At entry tick `W32 - 1` with timeout 10 the
deadline `(10 + (W32 - 1)) % W32` wraps to 9, so the very first check
fires and the call returns `timedOut` immediately, although the wrap-safe
elapsed time `sub32 now entry` is 0, well under the 10-tick budget. -/
theorem c8_deadline_check_not_wrap_safe :
    waitForButtonPressOrTimeout wrapEnv 10 (W32 - 1) initState 5 =
      some (WaitOutcome.timedOut 1, initState) ∧
    sub32 (wrapEnv.checkNow 1) (W32 - 1) = 0 := by decide

/-- Without wraparound (both ticks below `W32`, subtrahend no larger),
32-bit subtraction is ordinary subtraction. -/
theorem sub32_of_le {a b : Nat} (hba : b ≤ a) (ha : a < W32) : sub32 a b = a - b := by
  have h32 : W32 = 4294967296 := by norm_num [W32]
  unfold sub32
  rw [Nat.mod_eq_of_lt (show b < W32 by omega)]
  rw [show a + (W32 - b) = W32 + (a - b) by omega]
  rw [Nat.add_mod_left]
  exact Nat.mod_eq_of_lt (by omega)

theorem currentMask_true_false : currentMask true false = 1 := by decide

theorem currentMask_false_false : currentMask false false = 0 := by decide

/-- The latch during an episode in which A alone is pressed from poll 0 on:
after polls `0, ..., i - 1` (with `i ≤ R` and polls before `R` all reading
A pressed, B released), `state` is the A bit, both time stamps hold the
tick of poll 0, and the short flag reflects the duration seen at the last
poll. -/
theorem holdA_runState (env : Env) (s0 : State) (R : Nat)
    (hs0 : s0.state = 0)
    (hheld : ∀ i, i < R → env.buttonA i = true ∧ env.buttonB i = false) :
    ∀ i, 1 ≤ i → i ≤ R →
      runState env s0 i =
        { state := 1
          wasShortPress :=
            decide (sub32 (env.pollNow (i - 1)) (env.pollNow 0) < LONG_PRESS_MIN)
          totalState := (s0.totalState ||| 1) % 256
          initialPressTime := env.pollNow 0
          stateChangeTime := env.pollNow 0 } := by
  intro i
  induction i with
  | zero => omega
  | succ i ih =>
    intro _ hiR
    rcases Nat.eq_zero_or_pos i with hi0 | hi0
    · subst hi0
      obtain ⟨hA, hB⟩ := hheld 0 (by omega)
      show (poll env 0 s0).2 = _
      rw [poll, hA, hB]
      rw [getButtonState_press true false (env.pollNow 0) s0
        (by rw [currentMask_true_false, hs0]; decide) (by rw [currentMask_true_false]; decide)]
      simp [hs0, currentMask_true_false]
    · obtain ⟨hA, hB⟩ := hheld i (by omega)
      have hsi := ih hi0 (by omega)
      show (poll env i (runState env s0 i)).2 = _
      rw [poll, hA, hB, hsi]
      rw [getButtonState_held true false (env.pollNow i) _
        (by rw [currentMask_true_false]) (by simp)]
      simp

/-- C3: in any poll sequence in which A alone is pressed at polls
`0, ..., R - 1` and both buttons read released at poll `R`, with monotone
32-bit ticks and the hold having lasted at least `LONG_PRESS_MIN` by the
last held poll: every held poll after the first returns `BUTTON_F_LONG`
exactly when its tick has reached `LONG_PRESS_MIN` past the tick of poll 0
(so the long event fires at the first threshold-crossing poll and on every
later held poll), and the full-release poll `R` returns `BUTTON_NONE` — no
short event is produced. -/
theorem c3_a_held_long_repeats_then_silent_release (env : Env) (s0 : State) (R : Nat)
    (hR : 1 ≤ R)
    (hs0 : s0.state = 0)
    (hheld : ∀ i, i < R → env.buttonA i = true ∧ env.buttonB i = false)
    (hrel : env.buttonA R = false ∧ env.buttonB R = false)
    (ht32 : ∀ i, env.pollNow i < W32)
    (hmono : ∀ i j, i ≤ j → env.pollNow i ≤ env.pollNow j)
    (hlong : LONG_PRESS_MIN ≤ env.pollNow (R - 1) - env.pollNow 0) :
    (∀ i, 1 ≤ i → i < R →
      results env s0 i =
        (if LONG_PRESS_MIN ≤ env.pollNow i - env.pollNow 0 then ButtonState.BUTTON_F_LONG
        else ButtonState.BUTTON_NONE)) ∧
    results env s0 R = ButtonState.BUTTON_NONE := by
  constructor
  · intro i hi1 hiR
    obtain ⟨hA, hB⟩ := hheld i hiR
    rw [results, poll, hA, hB, holdA_runState env s0 R hs0 hheld i hi1 (by omega)]
    rw [getButtonState_held true false (env.pollNow i) _
      (by rw [currentMask_true_false]) (by simp)]
    rw [sub32_of_le (hmono 0 i (by omega)) (ht32 i)]
    simp
  · rw [results, poll, hrel.1, hrel.2,
      holdA_runState env s0 R hs0 hheld R hR (Nat.le_refl R)]
    rw [getButtonState_release false false (env.pollNow R) _
      currentMask_false_false (by simp)]
    have hws : decide (sub32 (env.pollNow (R - 1)) (env.pollNow 0) < LONG_PRESS_MIN) = false := by
      rw [sub32_of_le (hmono 0 (R - 1) (by omega)) (ht32 (R - 1))]
      simp
      omega
    simp [hws]

/-- An environment holding A alone for polls 0..4 and releasing it at poll
5, with ticks advancing one per poll (capped, so monotonicity is easy). -/
def c3Env : Env := ⟨fun i => decide (i < 5), fun _ => false, fun i => min i 100, fun _ => 0⟩

/-- Witness for C3: with threshold 4 and one tick per poll, holding A for
polls 0..4 makes poll 4 report `BUTTON_F_LONG` and the release poll 5
report `BUTTON_NONE`. -/
theorem c3_a_held_long_repeats_then_silent_release_witness :
    results c3Env initState 4 = ButtonState.BUTTON_F_LONG ∧
    results c3Env initState 5 = ButtonState.BUTTON_NONE := by
  have h := c3_a_held_long_repeats_then_silent_release c3Env initState 5
    (by decide) rfl
    (fun i hi => ⟨by show decide (i < 5) = true; simpa using hi, rfl⟩)
    ⟨rfl, rfl⟩
    (fun i => by
      show min i 100 < W32
      have hm := Nat.min_le_right i 100
      norm_num [W32])
    (fun i j hij => by
      show min i 100 ≤ min j 100
      exact min_le_min hij (Nat.le_refl 100))
    (by decide)
  refine ⟨?_, h.2⟩
  rw [h.1 4 (by decide) (by decide)]
  decide

/-- C10: the kind of the returned event matches the instantaneous reading:
a short event is returned only when both buttons read released, a long
event only when at least one reads pressed, and every poll returns a
short event, a long event or `BUTTON_NONE`. -/
theorem c10_event_kind_matches_reading (a b : Bool) (now : Nat) (s : State) :
    (isShortEvent (getButtonState a b now s).1 = true → currentMask a b = 0) ∧
    (isLongEvent (getButtonState a b now s).1 = true → currentMask a b ≠ 0) ∧
    ((getButtonState a b now s).1 = ButtonState.BUTTON_NONE ∨
      isShortEvent (getButtonState a b now s).1 = true ∨
      isLongEvent (getButtonState a b now s).1 = true) := by
  unfold getButtonState
  dsimp only
  split_ifs <;> simp_all [isShortEvent, isLongEvent]

/-- Witness for C10: the release poll of a short A episode reports
`BUTTON_F_SHORT`, a short event, so both buttons indeed read released. -/
theorem c10_event_kind_matches_reading_witness :
    currentMask false false = 0 :=
  (c10_event_kind_matches_reading false false 7 ⟨1, true, 1, 0, 0⟩).1 (by decide)

end Buttons
